import Mathlib

/-!
Shallow embedding of the streaming transcript reconciliation engine of the
LangChain-Agent frontend:

* the SSE decode loop of `chatApi.streamChat`
  (src/unnamed/part_013, lines 110-136),
* the per-frame fold of `useChatStore.sendMessage`'s `onMessage` handler and
  the helpers `decodeBase64UTF8`, `stopStreaming` and the `onError` path
  (src/frontend-next/src/lib/stores/chatStore.ts),

together with models of the JavaScript platform primitives the code calls:
`JSON.parse`, `atob` (WHATWG forgiving-base64) and `TextDecoder('utf-8')`
(non-fatal, U+FFFD replacement).  Wall-clock values (`Date.now()` message and
tool-call ids, timestamps) are threaded in as opaque parameters; fields of the
store that the reconciliation engine never reads or writes (message
timestamps, attached images) are omitted.
-/

/-! ## JSON values, modeling the result of `JSON.parse` -/

/-- A JSON value.  Numbers are modeled as exact rationals: the fold only ever
stores and compares the parsed numbers, it never performs arithmetic on them,
so decimal-literal rationals are observationally faithful to JS numbers here. -/
inductive Json where
  | null : Json
  | bool (b : Bool) : Json
  | num (q : Rat) : Json
  | str (s : String) : Json
  | arr (elems : List Json) : Json
  | obj (fields : List (String × Json)) : Json

/-- JS member access `v.k` as performed by the store on parsed JSON:
for objects, the last binding of the key wins (as in `JSON.parse` duplicate
key handling); for every non-object the access yields `undefined` (`none`).
Access on `null` throws in JS; the callers model that throw explicitly. -/
def Json.getField : Json → String → Option Json
  | .obj fields, k => (fields.reverse.find? (fun p => p.1 == k)).map (fun p => p.2)
  | _, _ => none

/-- JS truthiness of a JSON value (`NaN` cannot arise from `JSON.parse`). -/
def jsTruthy : Json → Bool
  | .null => false
  | .bool b => b
  | .num q => q != 0
  | .str s => s != ""
  | .arr _ => true
  | .obj _ => true

/-- JS truthiness of a nullable value (`null` is falsy). -/
def jsTruthyOpt : Option Json → Bool
  | none => false
  | some v => jsTruthy v

/-! ## `JSON.parse` -/

/-- JSON insignificant whitespace. -/
def isJsonWs (c : Char) : Bool :=
  c = ' ' || c = '\t' || c = '\n' || c = '\r'

def skipWs : List Char → List Char
  | [] => []
  | c :: r => if isJsonWs c then skipWs r else c :: r

def isDigitCh (c : Char) : Bool := '0' ≤ c && c ≤ '9'

def digitVal (c : Char) : Nat := c.toNat - '0'.toNat

/-- Value of a hex digit, for `\uXXXX` escapes.  Uppercase digits are folded
to lowercase (ASCII +32) before the range test. -/
def hexVal (c : Char) : Option Nat :=
  if isDigitCh c then some (digitVal c)
  else
    let folded := if 65 ≤ c.toNat && c.toNat ≤ 70 then c.toNat + 32 else c.toNat
    if 97 ≤ folded && folded ≤ 102 then some (folded - 87) else none

/-- Reads a maximal run of decimal digits; fails when there is none.
Returns the value, the number of digits, and the rest of the input. -/
def parseDigits (cs : List Char) : Option (Nat × Nat × List Char) :=
  let ds := cs.takeWhile isDigitCh
  if ds.isEmpty then none
  else some (ds.foldl (fun acc c => acc * 10 + digitVal c) 0, ds.length, cs.drop ds.length)

/-- Exact rational value of a JSON decimal literal
`sign * mantissa * 10 ^ exp10`. -/
def decToRat (neg : Bool) (mantissa : Nat) (exp10 : Int) : Rat :=
  let m : Int := if neg then -(mantissa : Int) else (mantissa : Int)
  if 0 ≤ exp10 then ((m * (10 : Int) ^ exp10.toNat : Int) : Rat)
  else mkRat m ((10 : Nat) ^ (-exp10).toNat)

/-- JSON number grammar after the optional leading minus sign:
`int frac? exp?` with `int = 0 | [1-9][0-9]*`. -/
def parseNumberBody (neg : Bool) (cs : List Char) : Option (Json × List Char) := do
  let (intVal, intLen, r1) ← parseDigits cs
  -- JSON forbids leading zeros: a literal starting with '0' is exactly "0".
  if intLen > 1 && cs.headD '0' = '0' then none
  else
    let (fracVal, fracLen, r2) :=
      match r1 with
      | '.' :: r =>
        match parseDigits r with
        | some (v, n, rest) => (v, n, rest)
        | none => (0, 0, '.' :: r)   -- marker: handled below
      | _ => (0, 0, r1)
    -- a '.' not followed by digits is a parse error
    match r1 with
    | '.' :: r =>
      if (parseDigits r).isNone then none
      else parseNumberExp neg (intVal * 10 ^ fracLen + fracVal) fracLen r2
    | _ => parseNumberExp neg intVal 0 r2
where
  parseNumberExp (neg : Bool) (mant : Nat) (fracLen : Nat) (cs : List Char) :
      Option (Json × List Char) :=
    match cs with
    | 'e' :: r => parseNumberExpSigned neg mant fracLen r
    | 'E' :: r => parseNumberExpSigned neg mant fracLen r
    | _ => some (.num (decToRat neg mant (-(fracLen : Int))), cs)
  parseNumberExpSigned (neg : Bool) (mant : Nat) (fracLen : Nat) (cs : List Char) :
      Option (Json × List Char) :=
    match cs with
    | '+' :: r => (parseDigits r).map (fun (e, _, rest) =>
        (.num (decToRat neg mant ((e : Int) - fracLen)), rest))
    | '-' :: r => (parseDigits r).map (fun (e, _, rest) =>
        (.num (decToRat neg mant (-(e : Int) - fracLen)), rest))
    | r => (parseDigits r).map (fun (e, _, rest) =>
        (.num (decToRat neg mant ((e : Int) - fracLen)), rest))

/-- JSON string body after the opening quote (fuel-indexed; callers supply
enough fuel).  Handles the JSON escapes; `\uXXXX` surrogate pairs are
combined, and a lone surrogate (which Lean's `Char` cannot carry) degrades to
U+FFFD.  Unescaped control characters are a parse error, as in `JSON.parse`. -/
def parseJStringF : Nat → List Char → Option (List Char × List Char)
  | 0, _ => none
  | _, [] => none
  | _ + 1, '"' :: r => some ([], r)
  | fuel + 1, '\\' :: esc =>
    match esc with
    | '"' :: r => (parseJStringF fuel r).map (fun (s, rest) => ('"' :: s, rest))
    | '\\' :: r => (parseJStringF fuel r).map (fun (s, rest) => ('\\' :: s, rest))
    | '/' :: r => (parseJStringF fuel r).map (fun (s, rest) => ('/' :: s, rest))
    | 'b' :: r => (parseJStringF fuel r).map (fun (s, rest) => ('\x08' :: s, rest))
    | 'f' :: r => (parseJStringF fuel r).map (fun (s, rest) => ('\x0c' :: s, rest))
    | 'n' :: r => (parseJStringF fuel r).map (fun (s, rest) => ('\n' :: s, rest))
    | 'r' :: r => (parseJStringF fuel r).map (fun (s, rest) => ('\r' :: s, rest))
    | 't' :: r => (parseJStringF fuel r).map (fun (s, rest) => ('\t' :: s, rest))
    | 'u' :: h1 :: h2 :: h3 :: h4 :: r => do
      let a ← hexVal h1
      let b ← hexVal h2
      let c ← hexVal h3
      let d ← hexVal h4
      let n := ((a * 16 + b) * 16 + c) * 16 + d
      if 0xD800 ≤ n && n ≤ 0xDBFF then
        -- possible surrogate pair
        match r with
        | '\\' :: 'u' :: g1 :: g2 :: g3 :: g4 :: r2 => do
          let a2 ← hexVal g1
          let b2 ← hexVal g2
          let c2 ← hexVal g3
          let d2 ← hexVal g4
          let n2 := ((a2 * 16 + b2) * 16 + c2) * 16 + d2
          if 0xDC00 ≤ n2 && n2 ≤ 0xDFFF then
            let cp := 0x10000 + (n - 0xD800) * 0x400 + (n2 - 0xDC00)
            (parseJStringF fuel r2).map (fun (s, rest) => (Char.ofNat cp :: s, rest))
          else
            (parseJStringF fuel ('\\' :: 'u' :: g1 :: g2 :: g3 :: g4 :: r2)).map
              (fun (s, rest) => ('�' :: s, rest))
        | _ => (parseJStringF fuel r).map (fun (s, rest) => ('�' :: s, rest))
      else if 0xDC00 ≤ n && n ≤ 0xDFFF then
        (parseJStringF fuel r).map (fun (s, rest) => ('�' :: s, rest))
      else
        (parseJStringF fuel r).map (fun (s, rest) => (Char.ofNat n :: s, rest))
    | _ => none
  | fuel + 1, c :: r =>
    if c.toNat < 0x20 then none
    else (parseJStringF fuel r).map (fun (s, rest) => (c :: s, rest))

/-- JSON string body with the fuel pre-supplied from the input length. -/
def parseJString (cs : List Char) : Option (List Char × List Char) :=
  parseJStringF (cs.length + 1) cs

mutual

/-- Recursive-descent JSON value parser (fuel-indexed; `jsonParse` supplies
enough fuel for any input). Skips leading whitespace itself. -/
def parseValue : Nat → List Char → Option (Json × List Char)
  | 0, _ => none
  | _ + 1, cs0 =>
    match skipWs cs0 with
    | [] => none
    | c :: r =>
      match c with
      | '"' => (parseJString r).map (fun (s, rest) => (.str (String.mk s), rest))
      | 't' =>
        match r with
        | 'r' :: 'u' :: 'e' :: rest => some (.bool true, rest)
        | _ => none
      | 'f' =>
        match r with
        | 'a' :: 'l' :: 's' :: 'e' :: rest => some (.bool false, rest)
        | _ => none
      | 'n' =>
        match r with
        | 'u' :: 'l' :: 'l' :: rest => some (.null, rest)
        | _ => none
      | '-' => parseNumberBody true r
      | _ =>
        if isDigitCh c then parseNumberBody false (c :: r)
        else none

/-- Parses a JSON value when the head (after whitespace) is `[` or `{`,
or any other value; split from `parseValue` only to decrease fuel on
recursion into containers.  This is the entry used below. -/
def parseAnyValue : Nat → List Char → Option (Json × List Char)
  | 0, _ => none
  | fuel + 1, cs0 =>
    match skipWs cs0 with
    | '{' :: r => parseMembers fuel (skipWs r) []
    | '[' :: r => parseElems fuel (skipWs r) []
    | cs => parseValue (fuel + 1) cs

/-- Parses the members of a JSON object after `{` (whitespace already
skipped), accumulating in reverse order and reversing at the end. -/
def parseMembers : Nat → List Char → List (String × Json) →
    Option (Json × List Char)
  | 0, _, _ => none
  | fuel + 1, cs, acc =>
    match cs with
    | '}' :: rest => some (.obj acc.reverse, rest)
    | '"' :: r => do
      let (key, r1) ← parseJString r
      match skipWs r1 with
      | ':' :: r2 => do
        let (v, r3) ← parseAnyValue fuel r2
        match skipWs r3 with
        | ',' :: r4 => parseMembers fuel (skipWs r4) ((String.mk key, v) :: acc)
        | '}' :: r4 => some (.obj ((String.mk key, v) :: acc).reverse, r4)
        | _ => none
      | _ => none
    | _ => none

/-- Parses the elements of a JSON array after `[` (whitespace already
skipped). -/
def parseElems : Nat → List Char → List Json → Option (Json × List Char)
  | 0, _, _ => none
  | fuel + 1, cs, acc =>
    match cs with
    | ']' :: rest => some (.arr acc.reverse, rest)
    | _ => do
      let (v, r1) ← parseAnyValue fuel cs
      match skipWs r1 with
      | ',' :: r2 => parseElems fuel r2 (v :: acc)
      | ']' :: r2 => some (.arr (v :: acc).reverse, r2)
      | _ => none

end

/-- Model of `JSON.parse`: parse one value, require only whitespace after it;
`none` models the thrown `SyntaxError`. -/
def jsonParse (s : String) : Option Json :=
  match parseAnyValue (2 * s.data.length + 8) s.data with
  | some (v, rest) => if skipWs rest = [] then some v else none
  | none => none

/-! ## `atob` (WHATWG forgiving-base64) and `TextDecoder('utf-8')` -/

/-- ASCII whitespace, removed by forgiving-base64 before decoding. -/
def isAsciiWs (c : Char) : Bool :=
  c = ' ' || c = '\t' || c = '\n' || c = '\x0c' || c = '\r'

/-- Index of a character in the base64 alphabet. -/
def b64Index (c : Char) : Option Nat :=
  if 'A' ≤ c && c ≤ 'Z' then some (c.toNat - 'A'.toNat)
  else if 'a' ≤ c && c ≤ 'z' then some (c.toNat - 'a'.toNat + 26)
  else if '0' ≤ c && c ≤ '9' then some (c.toNat - '0'.toNat + 52)
  else if c = '+' then some 62
  else if c = '/' then some 63
  else none

/-- Strips one or two trailing `=` padding characters. -/
def stripB64Pad (cs : List Char) : List Char :=
  if cs.getLastD ' ' = '=' then
    let cs1 := cs.dropLast
    if cs1.getLastD ' ' = '=' then cs1.dropLast else cs1
  else cs

/-- Turns a list of 6-bit values into bytes (final 2 sextets give 1 byte,
final 3 sextets give 2 bytes, as in forgiving-base64). -/
def b64Groups : List Nat → List Nat
  | a :: b :: c :: d :: rest =>
    (a * 4 + b / 16) :: ((b % 16) * 16 + c / 4) :: ((c % 4) * 64 + d) :: b64Groups rest
  | [a, b] => [a * 4 + b / 16]
  | [a, b, c] => [a * 4 + b / 16, (b % 16) * 16 + c / 4]
  | _ => []

/-- Model of `atob` (the WHATWG forgiving-base64 decode): `none` models the
thrown `InvalidCharacterError`, `some bytes` the returned binary string
(whose char codes the store copies into a `Uint8Array`). -/
def atob (s : String) : Option (List Nat) :=
  let cs := s.data.filter (fun c => !isAsciiWs c)
  let cs := if cs.length % 4 = 0 then stripB64Pad cs else cs
  if cs.length % 4 = 1 then none
  else if cs.any (fun c => (b64Index c).isNone) then none
  else some (b64Groups (cs.map (fun c => (b64Index c).getD 0)))

/-- One step of the WHATWG UTF-8 decoder: reads one scalar value from the
byte list, or reports an error together with the bytes at which decoding
resumes (the offending byte is not consumed, per the specification's
"restore byte to stream" rule). -/
def utf8Step : Nat → List Nat → Option Nat × List Nat
  | b, rest =>
    if b ≤ 0x7F then (some b, rest)
    else if 0xC2 ≤ b && b ≤ 0xDF then
      match rest with
      | c1 :: r1 =>
        if 0x80 ≤ c1 && c1 ≤ 0xBF then (some ((b - 0xC0) * 64 + (c1 - 0x80)), r1)
        else (none, c1 :: r1)
      | [] => (none, [])
    else if 0xE0 ≤ b && b ≤ 0xEF then
      let lo1 := if b = 0xE0 then 0xA0 else 0x80
      let hi1 := if b = 0xED then 0x9F else 0xBF
      match rest with
      | c1 :: r1 =>
        if lo1 ≤ c1 && c1 ≤ hi1 then
          match r1 with
          | c2 :: r2 =>
            if 0x80 ≤ c2 && c2 ≤ 0xBF then
              (some ((b - 0xE0) * 4096 + (c1 - 0x80) * 64 + (c2 - 0x80)), r2)
            else (none, c2 :: r2)
          | [] => (none, [])
        else (none, c1 :: r1)
      | [] => (none, [])
    else if 0xF0 ≤ b && b ≤ 0xF4 then
      let lo1 := if b = 0xF0 then 0x90 else 0x80
      let hi1 := if b = 0xF4 then 0x8F else 0xBF
      match rest with
      | c1 :: r1 =>
        if lo1 ≤ c1 && c1 ≤ hi1 then
          match r1 with
          | c2 :: r2 =>
            if 0x80 ≤ c2 && c2 ≤ 0xBF then
              match r2 with
              | c3 :: r3 =>
                if 0x80 ≤ c3 && c3 ≤ 0xBF then
                  (some ((b - 0xF0) * 262144 + (c1 - 0x80) * 4096 +
                    (c2 - 0x80) * 64 + (c3 - 0x80)), r3)
                else (none, c3 :: r3)
              | [] => (none, [])
            else (none, c2 :: r2)
          | [] => (none, [])
        else (none, c1 :: r1)
      | [] => (none, [])
    else (none, rest)

/-- WHATWG UTF-8 decode with U+FFFD replacement (fuel-indexed), modeling
`new TextDecoder('utf-8').decode` in its default non-fatal mode. -/
def utf8DecodeF : Nat → List Nat → List Char
  | 0, _ => []
  | _, [] => []
  | fuel + 1, b :: rest =>
    match utf8Step b rest with
    | (some cp, r) => Char.ofNat cp :: utf8DecodeF fuel r
    | (none, r) => '�' :: utf8DecodeF fuel r

/-- UTF-8 decode with replacement, fuel pre-supplied from the input length. -/
def utf8Decode (bytes : List Nat) : String :=
  String.mk (utf8DecodeF (bytes.length + 1) bytes)

/-- `decodeBase64UTF8` from chatStore.ts: base64-decode the payload and
interpret the bytes as UTF-8; if `atob` throws, fall back to the raw input. -/
def decodeBase64UTF8 (base64 : String) : String :=
  match atob base64 with
  | some bytes => utf8Decode bytes
  | none => base64

/-! ## The SSE decode loop of `chatApi.streamChat` (src/unnamed/part_013) -/

/-- One `{ type, data }` event as passed to the `onMessage` callback. -/
structure SSEEvent where
  type : String
  data : String
deriving DecidableEq

/-- JS `String.prototype.split('\n')` on a string viewed as its characters:
the list of `'\n'`-separated segments (never empty; a trailing separator
yields a trailing empty segment). -/
def splitLines : List Char → List (List Char)
  | [] => [[]]
  | c :: rest =>
    if c = '\n' then [] :: splitLines rest
    else
      match splitLines rest with
      | l :: ls => (c :: l) :: ls
      | [] => [[c]]

/-- Whitespace removed by JS `String.prototype.trim` (ASCII part; the exotic
Unicode whitespace JS also trims cannot occur in this protocol's lines). -/
def isJsTrimWs (c : Char) : Bool :=
  c = ' ' || c = '\t' || c = '\n' || c = '\x0b' || c = '\x0c' || c = '\r' || c = '\xa0'

/-- JS `String.prototype.trim`. -/
def jsTrim (cs : List Char) : List Char :=
  ((cs.dropWhile isJsTrimWs).reverse.dropWhile isJsTrimWs).reverse

/-- The `for (const line of lines)` body of the streamChat read loop, as the
events one iteration delivers to `onMessage`: an `event:` line looks up the
line after the *first* occurrence of the current line's text in the whole
window (`lines.indexOf(line) + 1`) and, if that is a `data:` line, emits a
frame with the declared type; every `data:` line emits a `text` frame on its
own iteration; other lines emit nothing. -/
def lineContrib (lines : List (List Char)) (line : List Char) : List SSEEvent :=
  if "event:".data.isPrefixOf line then
    let eventType := jsTrim (line.drop 6)
    match lines.get? (lines.indexOf line + 1) with
    | some dataLine =>
      if "data:".data.isPrefixOf dataLine then
        [⟨String.mk eventType, String.mk (jsTrim (dataLine.drop 5))⟩]
      else []
    | none => []
  else if "data:".data.isPrefixOf line then
    [⟨"text", String.mk (jsTrim (line.drop 5))⟩]
  else []

/-- The `for (const line of lines)` loop: each iteration appends the events
its line contributes, in order. -/
def processLines (lines : List (List Char)) : List SSEEvent :=
  lines.foldl (fun acc line => acc ++ lineContrib lines line) []

/-- One iteration of the streamChat read loop: append the chunk to the
buffer, split on newlines, keep the final (possibly incomplete) segment as
the new buffer, and process the complete lines.  Returns the new buffer and
the events emitted for this chunk. -/
def processChunk (buffer chunk : List Char) : List Char × List SSEEvent :=
  let parts := splitLines (buffer ++ chunk)
  (parts.getLastD [], processLines parts.dropLast)

/-- Drives a whole sequence of transport chunks through the read loop,
starting from the empty buffer, and collects every event delivered to
`onMessage` in order.  A final incomplete buffer is discarded when the
transport signals end of stream, as in the source's loop exit. -/
def processStreamAux (buffer : List Char) : List (List Char) → List SSEEvent
  | [] => []
  | chunk :: rest =>
    let (buffer1, evs) := processChunk buffer chunk
    evs ++ processStreamAux buffer1 rest

/-- All events emitted by streamChat's decode loop for the given chunks. -/
def processStream (chunks : List (List Char)) : List SSEEvent :=
  processStreamAux [] chunks

/-- The `catch` at the end of `streamChat`: `onError` is invoked exactly for
errors whose `name` differs from `"AbortError"`. -/
def streamChatReportsError (errorName : String) : Bool :=
  errorName != "AbortError"

/-- The string thrown by streamChat on a non-2xx response status:
`` `HTTP error! status: ${response.status}` ``. -/
def httpErrorMessage (status : Nat) : String :=
  "HTTP error! status: " ++ toString status

/-- The response branch of `streamChat`: a non-ok response throws before the
body is ever read (so no event is produced from it), and is reported through
the catch as the HTTP error message; an ok response streams its chunks
through the decode loop.  `body` is the response body, available on the wire
but never read in the non-ok branch. -/
def streamChatResponse (ok : Bool) (status : Nat) (_body : String)
    (chunks : List (List Char)) : Except String (List SSEEvent) :=
  if !ok then .error (httpErrorMessage status)
  else .ok (processStream chunks)

/-! ## The chat store fold (chatStore.ts, `sendMessage`'s `onMessage`) -/

/-- One entry of the conversation list (the Session Directory).  The id is
kept as the JSON value the `done` handler stored (a string in practice);
timestamps are wall-clock values and are omitted. -/
structure Conversation where
  id : Json
  title : String

/-- A tool invocation nested in a message.  `output`/`duration` hold
whatever JSON values the `tool_end` payload carried (absent = `undefined`). -/
structure ToolCall where
  id : String
  name : String
  args : Json
  status : String
  output : Option Json
  duration : Option Json

/-- A citation as built by the `citation` case: each field is whatever the
payload object carried under the corresponding snake_case key (`none` =
`undefined`).  The source's `section` field is called `sect` here because
`section` is a Lean keyword. -/
structure Citation where
  chunkId : Option Json
  documentId : Option Json
  documentName : Option Json
  pageNumber : Option Json
  sect : Option Json
  content : Option Json
  contentPreview : Option Json
  score : Option Json
  highlightRanges : Option Json
  metadata : Option Json

/-- A transcript message.  `toolCalls`/`citations`/`isStreaming` are the
optional fields of the source's `Message` type (`none` = `undefined`);
timestamps and attached images are never read by the fold and are omitted. -/
structure Message where
  id : String
  role : String
  content : String
  toolCalls : Option (List ToolCall)
  citations : Option (List Citation)
  isStreaming : Option Bool

/-- The slice of the zustand store state that the streaming turn reads or
writes.  `streamController` records whether an AbortController is held. -/
structure ChatState where
  conversations : List Conversation
  currentConversationId : Option Json
  messages : List Message
  isStreaming : Bool
  error : Option String
  streamController : Bool

/-- The title computed for an implicitly created conversation:
`content.slice(0, 50) + (content.length > 50 ? '...' : '')` (JS indexes
UTF-16 units; character indexing coincides on all inputs considered here). -/
def mkTitle (content : String) : String :=
  String.mk (content.data.take 50) ++ (if content.data.length > 50 then "..." else "")

/-- The `tool_end` mutation: the last entry of the copied `toolCalls` array,
when present, gets status `success` and the payload's `output`/`duration`. -/
def updateLastToolCall (toolData : Json) (l : List ToolCall) : List ToolCall :=
  match l.getLast? with
  | none => l
  | some tc =>
    l.dropLast ++ [{ tc with
        status := "success",
        output := toolData.getField "output",
        duration := toolData.getField "duration" }]

/-- The user message appended synchronously by `sendMessage` (its
`Date.now()`-derived id is threaded in as a parameter). -/
def userMessage (id : String) (content : String) : Message :=
  { id := id, role := "user", content := content, toolCalls := none,
    citations := none, isStreaming := none }

/-- The placeholder assistant message appended synchronously by
`sendMessage`: pending (`isStreaming: true`), empty content, empty
`toolCalls`, no `citations` field. -/
def assistantPlaceholder (id : String) : Message :=
  { id := id, role := "assistant", content := "", toolCalls := some [],
    citations := none, isStreaming := some true }

/-- The `citation` case's `newCitation` record: each field reads the
corresponding snake_case key of the parsed payload. -/
def mkCitation (citationData : Json) : Citation :=
  { chunkId := citationData.getField "chunk_id",
    documentId := citationData.getField "document_id",
    documentName := citationData.getField "document_name",
    pageNumber := citationData.getField "page_number",
    sect := citationData.getField "section",
    content := citationData.getField "content",
    contentPreview := citationData.getField "content_preview",
    score := citationData.getField "score",
    highlightRanges := citationData.getField "highlight_ranges",
    metadata := citationData.getField "metadata" }

/-- The `tool_end` case's thrown-`TypeError` guard: `toolData.output` on
`null` throws inside `set` (and the update is then discarded by the inner
catch); the access is reached exactly when some message passes the guard
with a nonempty toolCalls array.  One JS shading is not modeled: the
assignment `lastToolCall.status = 'success'` on the line before the throw
mutates the tool-call object aliased from the current state's array, so the
real store's last tool call flips to success even though `set` never runs;
no theorem here observes tool-call status on this null-payload path. -/
def toolEndNullThrows (st : ChatState) (lastMessage : Message) (toolData : Json) : Bool :=
  match toolData with
  | .null => st.messages.any (fun m =>
      m.id == lastMessage.id && m.toolCalls.isSome && !(m.toolCalls.getD []).isEmpty)
  | _ => false

/-- The `done` case's update of the closure variable `newConversationId`:
it is (re)assigned exactly when the payload parses to a non-null value whose
`conversation_id` is truthy and the turn started with no (falsy) session id;
a parse failure (plain "complete") or an access throw on `null` leaves it
unchanged, and the `if (newConversationId)` that follows sits outside the
`try`. -/
def doneNewConversationId (turnId : Option Json) (nci : Option Json)
    (decoded : String) : Option Json :=
  match jsonParse decoded with
  | none => nci        -- done data might be a plain string; parse threw
  | some .null => nci  -- `doneData.conversation_id` throws; caught
  | some doneData =>
    match doneData.getField "conversation_id" with
    | some v => if jsTruthy v && !(jsTruthyOpt turnId) then some v else nci
    | none => nci

/-- One step of the `onMessage` handler of `sendMessage`.

* `turnId` is the closure-captured `currentConversationId` from the start of
  the turn, `userContent` the closure-captured user text, `freshId` the
  `Date.now()`-derived id used if this event creates a tool call.
* The state component `nci` is the closure variable `newConversationId`.
* Thrown-and-caught exceptions (`JSON.parse` errors, property access on
  `null`) are modeled at the `try`/`catch` boundaries where the source
  catches them: the inner catches of `tool_end`/`citation`/`done` make the
  frame a no-op; nothing in the handler can reach the outer catch. -/
def foldStep (turnId : Option Json) (userContent : String) (freshId : String)
    (st : ChatState) (nci : Option Json) (ev : SSEEvent) : ChatState × Option Json :=
  match st.messages.getLast? with
  | none => (st, nci)
  | some lastMessage =>
    if lastMessage.role == "assistant" then
      -- `decodedData` (the source binds `decodeBase64UTF8(event.data)` once)
      -- is written out at each use below.
      if ev.type == "text" then
        ({ st with messages := st.messages.map (fun m =>
            if m.id == lastMessage.id then
              { m with content := m.content ++ decodeBase64UTF8 ev.data }
            else m) }, nci)
      else if ev.type == "tool_start" then
        ({ st with messages := st.messages.map (fun m =>
            if m.id == lastMessage.id then
              { m with toolCalls := some ((m.toolCalls.getD []) ++
                  [{ id := freshId, name := decodeBase64UTF8 ev.data, args := .obj [],
                     status := "running", output := none, duration := none }]) }
            else m) }, nci)
      else if ev.type == "tool_end" then
        match jsonParse (decodeBase64UTF8 ev.data) with
        | none => (st, nci)  -- JSON.parse threw; the inner catch drops the frame
        | some toolData =>
          if toolEndNullThrows st lastMessage toolData then (st, nci)
          else
            ({ st with messages := st.messages.map (fun m =>
                if m.id == lastMessage.id && m.toolCalls.isSome then
                  { m with
                      toolCalls := some (updateLastToolCall toolData (m.toolCalls.getD [])) }
                else m) }, nci)
      else if ev.type == "citation" then
        match jsonParse (decodeBase64UTF8 ev.data) with
        | none => (st, nci)  -- JSON.parse threw; the inner catch drops the frame
        | some citationData =>
          match citationData with
          | .null => (st, nci)  -- property access on null throws before `set`
          | _ =>
            ({ st with messages := st.messages.map (fun m =>
                if m.id == lastMessage.id then
                  { m with citations := some ((m.citations.getD []) ++
                      [mkCitation citationData]) }
                else m) }, nci)
      else if ev.type == "done" then
        match doneNewConversationId turnId nci (decodeBase64UTF8 ev.data) with
        | some v =>
          let newConversation : Conversation := { id := v, title := mkTitle userContent }
          ({ st with
              currentConversationId := some v,
              conversations := newConversation :: st.conversations,
              messages := st.messages.map (fun m =>
                if m.id == lastMessage.id then { m with isStreaming := some false }
                else m),
              isStreaming := false,
              streamController := false },
            doneNewConversationId turnId nci (decodeBase64UTF8 ev.data))
        | none =>
          ({ st with
              messages := st.messages.map (fun m =>
                if m.id == lastMessage.id then { m with isStreaming := some false }
                else m),
              isStreaming := false,
              streamController := false },
            doneNewConversationId turnId nci (decodeBase64UTF8 ev.data))
      else (st, nci)         -- no case in the switch (includes type "error")
    else (st, nci)

/-- Folds a list of events through `foldStep`, threading the index used to
draw fresh tool-call ids from the supply `ids`. -/
def foldEventsAux (turnId : Option Json) (userContent : String) (ids : Nat → String) :
    Nat → ChatState × Option Json → List SSEEvent → ChatState × Option Json
  | _, s, [] => s
  | k, (st, nci), ev :: rest =>
    foldEventsAux turnId userContent ids (k + 1)
      (foldStep turnId userContent (ids k) st nci ev) rest

/-- The whole-turn fold: every event delivered to `onMessage`, starting with
`newConversationId = null`. -/
def foldTurn (turnId : Option Json) (userContent : String) (ids : Nat → String)
    (st0 : ChatState) (events : List SSEEvent) : ChatState :=
  (foldEventsAux turnId userContent ids 0 (st0, none) events).1

/-- The `onError` callback of `sendMessage`: records the failure reason and
ends the stream. -/
def onErrorStep (st : ChatState) (message : String) : ChatState :=
  { st with error := some message, isStreaming := false, streamController := false }

/-- `stopStreaming`: when a controller is held, abort it, drop it and clear
the streaming flags (messages keep their folded content); with no controller
held the call is a no-op. -/
def stopStreamingStep (st : ChatState) : ChatState :=
  if st.streamController then
    { st with
        isStreaming := false,
        streamController := false,
        messages := st.messages.map (fun m =>
          if m.isStreaming.getD false then { m with isStreaming := some false } else m) }
  else st

/-! ## Observers and concrete scenario states used by the theorems -/

/-- Content of the `i`-th transcript message (empty when out of range). -/
def contentAt (st : ChatState) (i : Nat) : String :=
  ((st.messages.get? i).map Message.content).getD ""

/-- Tool-call names of the `i`-th transcript message. -/
def toolNamesAt (st : ChatState) (i : Nat) : List String :=
  ((st.messages.get? i).map (fun m => (m.toolCalls.getD []).map ToolCall.name)).getD []

/-- Citations of the `i`-th transcript message. -/
def citationsAt (st : ChatState) (i : Nat) : List Citation :=
  ((st.messages.get? i).map (fun m => m.citations.getD [])).getD []

/-- The store state right after `sendMessage` appended the user message and
the assistant placeholder, on a turn over the existing conversation
`"conv1"`. -/
def stExisting : ChatState :=
  { conversations := [{ id := .str "conv1", title := "Chat" }],
    currentConversationId := some (.str "conv1"),
    messages := [userMessage "u1" "hi", assistantPlaceholder "a1"],
    isStreaming := true, error := none, streamController := true }

/-- The same post-`sendMessage` state for a turn with no prior session. -/
def stFresh : ChatState :=
  { conversations := [], currentConversationId := none,
    messages := [userMessage "u1" "hello world", assistantPlaceholder "a1"],
    isStreaming := true, error := none, streamController := true }

/-- The `Date.now()`-style supply of tool-call ids used in scenarios. -/
def toolIds (n : Nat) : String := "tool-" ++ toString n

/-- The §8 scenario frame sequence in the wire vocabulary of the repository
(base64 payloads; `tool_end` carries `{output, duration}` and `citation`
carries snake_case keys, as documented in the repo's own SSE format notes):
text "Hel", text "lo", tool_start "search",
tool_end `{"output":"ok","duration":120}`,
citation `{"document_id":"doc1","score":0.8}`, done `{}`. -/
def scenarioEvents : List SSEEvent :=
  [⟨"text", "SGVs"⟩, ⟨"text", "bG8="⟩, ⟨"tool_start", "c2VhcmNo"⟩,
   ⟨"tool_end", "eyJvdXRwdXQiOiJvayIsImR1cmF0aW9uIjoxMjB9"⟩,
   ⟨"citation", "eyJkb2N1bWVudF9pZCI6ImRvYzEiLCJzY29yZSI6MC44fQ=="⟩,
   ⟨"done", "e30="⟩]

/-- The §8 scenario with the payload keys written exactly as the claim
spells them (`durationMs`, `sourceId`, `relevanceScore`):
tool_end `{"output":"ok","durationMs":120}` and
citation `{"sourceId":"doc1","relevanceScore":0.8}`, base64-encoded. -/
def scenarioEventsLiteral : List SSEEvent :=
  [⟨"text", "SGVs"⟩, ⟨"text", "bG8="⟩, ⟨"tool_start", "c2VhcmNo"⟩,
   ⟨"tool_end", "eyJvdXRwdXQiOiJvayIsImR1cmF0aW9uTXMiOjEyMH0="⟩,
   ⟨"citation", "eyJzb3VyY2VJZCI6ImRvYzEiLCJyZWxldmFuY2VTY29yZSI6MC44fQ=="⟩,
   ⟨"done", "e30="⟩]

/-! ## C1 — chunk-boundary independence of the decode loop -/

/-- C1: evaluation of the decode loop at the failing input.  The same byte
stream `event: done\ndata: e30=\n` emits the frames
`(done, "e30="), (text, "e30=")` when delivered in one chunk, but only
`(text, "e30=")` when split between the `event:` line and the `data:` line —
the declared type is lost at the chunk boundary, and the two deliveries fold
to different final Messages (the one-chunk turn ends non-pending, the split
turn stays pending).  This refutes chunk-boundary independence as the code
stands; the spec's decoder contract (buffer partial frames, emit each frame
once with its declared type) describes the evident intent. -/
theorem streamChat_chunk_split_changes_frames :
    processStream ["event: done\ndata: e30=\n".data] =
      [⟨"done", "e30="⟩, ⟨"text", "e30="⟩] ∧
    processStream ["event: done\n".data, "data: e30=\n".data] =
      [⟨"text", "e30="⟩] ∧
    ((foldTurn (some (.str "conv1")) "hi" toolIds stExisting
        (processStream ["event: done\ndata: e30=\n".data])).messages.get? 1).map
        Message.isStreaming = some (some false) ∧
    ((foldTurn (some (.str "conv1")) "hi" toolIds stExisting
        (processStream ["event: done\n".data, "data: e30=\n".data])).messages.get? 1).map
        Message.isStreaming = some (some true) :=
  ⟨rfl, rfl, rfl, rfl⟩

/-! ## C2 — the §8 scenario on an existing session -/

/-- C2 (counterexample): with the payload keys written exactly as the claim
spells them (`durationMs`, `sourceId`, `relevanceScore`), the fold leaves the
tool call's `duration` undefined (the code reads the key `duration`) and
appends a citation all of whose fields are undefined (the code reads
snake_case keys), so the final Message has neither a duration of 120 nor a
citation referring to doc1. -/
theorem scenario_literal_keys_cex :
    let final := foldTurn (some (.str "conv1")) "hi" toolIds stExisting
      scenarioEventsLiteral
    (final.messages.get? 1).map (fun m => (m.toolCalls.getD []).map
        (fun tc => (tc.name, tc.status, tc.output, tc.duration))) =
      some [("search", "success", some (.str "ok"), none)] ∧
    (final.messages.get? 1).map (fun m => (m.citations.getD []).map
        (fun c => (c.chunkId, c.documentId, c.documentName, c.pageNumber, c.sect,
          c.content, c.contentPreview, c.score, c.highlightRanges, c.metadata))) =
      some [(none, none, none, none, none, none, none, none, none, none)] :=
  ⟨rfl, rfl⟩

/-- C2 (amended): the §8 scenario with the payloads carrying the repository's
wire keys (`duration` for the tool result, snake_case `document_id`/`score`
for the citation) folds, on a turn with an existing session id, to the final
Message claimed: content `"Hello"`, exactly one tool invocation named
`"search"` with status success, output `"ok"` and duration `120`, exactly one
citation for `doc1` (score 0.8 = 4/5), pending `false`, with the conversation
list and active conversation unchanged. -/
theorem scenario_existing_session_final_message :
    (foldTurn (some (.str "conv1")) "hi" toolIds stExisting
        scenarioEvents).messages.map Message.content = ["hi", "Hello"] ∧
    ((foldTurn (some (.str "conv1")) "hi" toolIds stExisting
        scenarioEvents).messages.get? 1).map (fun m => (m.toolCalls.getD []).map
        (fun tc => (tc.name, tc.status, tc.output, tc.duration))) =
      some [("search", "success", some (.str "ok"), some (.num 120))] ∧
    ((foldTurn (some (.str "conv1")) "hi" toolIds stExisting
        scenarioEvents).messages.get? 1).map (fun m => (m.citations.getD []).map
        (fun c => (c.documentId, c.score))) =
      some [(some (.str "doc1"), some (.num (mkRat 4 5)))] ∧
    ((foldTurn (some (.str "conv1")) "hi" toolIds stExisting
        scenarioEvents).messages.get? 1).map Message.isStreaming = some (some false) ∧
    (foldTurn (some (.str "conv1")) "hi" toolIds stExisting
        scenarioEvents).conversations = stExisting.conversations ∧
    (foldTurn (some (.str "conv1")) "hi" toolIds stExisting
        scenarioEvents).currentConversationId = stExisting.currentConversationId :=
  ⟨rfl, rfl, rfl, rfl, rfl, rfl⟩

/-! ## C3 — producer `error` frames -/

/-- C3 (counterexample): folding an `error` frame with payload "boom"
(base64 `Ym9vbQ==`) leaves the store state completely unchanged — in
particular the turn is not marked failed (`error` stays `none`), contrary to
the claim that the StreamOutcome becomes failed with message "boom". -/
theorem error_frame_not_failed_cex :
    foldStep (some (.str "conv1")) "hi" (toolIds 0) stExisting none
      ⟨"error", "Ym9vbQ=="⟩ = (stExisting, none) ∧
    stExisting.error = none ∧ stExisting.isStreaming = true :=
  ⟨rfl, rfl, rfl⟩

/-- C3 (amended): the `onMessage` switch has no `error` case, so a producer
`error` frame is ignored like any unknown frame type: the fold is the
identity on the whole state.  Consequently nothing already folded is cleared
(trivially), but no failed outcome is produced either — StreamOutcome can
become failed only through the transport `onError` path. -/
theorem error_frame_ignored (turnId : Option Json) (uc fid d : String)
    (st : ChatState) (nci : Option Json) :
    foldStep turnId uc fid st nci ⟨"error", d⟩ = (st, nci) := by
  unfold foldStep
  split
  · rfl
  · split <;> rfl

/-! ## C5 — transport-decode failure handling -/

/-- C5 (counterexample): a `tool_end` frame whose payload `%%%` fails base64
decoding is dropped as a no-op — the raw payload is *not* appended to the
content and the frame is *not* re-typed as text (the assistant placeholder's
content stays empty). -/
theorem undecodable_tool_end_cex :
    foldStep (some (.str "conv1")) "hi" (toolIds 0) stExisting none
      ⟨"tool_end", "%%%"⟩ = (stExisting, none) ∧
    contentAt stExisting 1 = "" :=
  ⟨rfl, rfl⟩

/-- C5 (amended): a transport-decode failure never raises —
`decodeBase64UTF8` falls back to the raw payload — and the raw payload is
then handed to the *declared* type's case: a `text` frame appends the raw
payload to the content, while a `tool_end` or `citation` frame whose raw
payload is not JSON degrades to a no-op for that frame; no re-typing to
"text" takes place. -/
theorem decode_failure_raw_passthrough (s : String) (hdec : atob s = none) :
    decodeBase64UTF8 s = s ∧
    (∀ (turnId : Option Json) (uc fid : String) (st : ChatState) (nci : Option Json),
      jsonParse s = none →
      foldStep turnId uc fid st nci ⟨"tool_end", s⟩ = (st, nci) ∧
      foldStep turnId uc fid st nci ⟨"citation", s⟩ = (st, nci)) ∧
    (∀ (turnId : Option Json) (uc fid : String) (st : ChatState) (nci : Option Json)
      (lastMessage : Message),
      st.messages.getLast? = some lastMessage →
      lastMessage.role = "assistant" →
      (foldStep turnId uc fid st nci ⟨"text", s⟩).1.messages =
        st.messages.map (fun m =>
          if m.id == lastMessage.id then { m with content := m.content ++ s }
          else m)) := by
  have hself : decodeBase64UTF8 s = s := by
    unfold decodeBase64UTF8
    rw [hdec]
  refine ⟨hself, ?_, ?_⟩
  · intro turnId uc fid st nci hjson
    constructor <;>
    · unfold foldStep
      split
      · rfl
      · split
        · simp only [hself, hjson]
          rfl
        · rfl
  · intro turnId uc fid st nci lastMessage hlast hrole
    unfold foldStep
    have hr : (lastMessage.role == "assistant") = true := by
      rw [hrole]; rfl
    simp only [hlast, hr, if_true, hself]
    rfl

/-! ## C10 — non-2xx response handling -/

/-- C10 (counterexample): on a 500 response with body `"boom"`, the failure
reason surfaced through the catch is the fixed string
`HTTP error! status: 500`, not the response body. -/
theorem non2xx_reason_not_body_cex :
    streamChatResponse false 500 "boom" ["data: SGVs\n".data] =
      .error "HTTP error! status: 500" ∧
    "HTTP error! status: 500" ≠ "boom" :=
  ⟨rfl, by decide⟩

/-- C10 (amended): a non-ok response makes `streamChat` throw before the body
stream is read, so no frame is ever produced or folded; the catch delivers
`` `HTTP error! status: ${status}` `` (the response body is not read) to
`onError`, which records it as the failure reason and ends the stream,
leaving the transcript untouched. -/
theorem non2xx_fails_before_any_fold (status : Nat) (body : String)
    (chunks : List (List Char)) (st : ChatState) :
    streamChatResponse false status body chunks = .error (httpErrorMessage status) ∧
    (onErrorStep st (httpErrorMessage status)).error = some (httpErrorMessage status) ∧
    (onErrorStep st (httpErrorMessage status)).messages = st.messages ∧
    (onErrorStep st (httpErrorMessage status)).isStreaming = false :=
  ⟨rfl, rfl, rfl, rfl⟩

/-! ## C4 — `tool_end` targeting -/

/-- The §9 interleaving probe: tool_start "a", tool_start "b",
tool_end `{"output":"x"}`, tool_end `{"output":"y"}` (base64). -/
def interleavedToolEvents : List SSEEvent :=
  [⟨"tool_start", "YQ=="⟩, ⟨"tool_start", "Yg=="⟩,
   ⟨"tool_end", "eyJvdXRwdXQiOiJ4In0="⟩, ⟨"tool_end", "eyJvdXRwdXQiOiJ5In0="⟩]

/-- C4 (counterexample): with two `tool_start`s before their `tool_end`s, the
first `tool_end` finalizes the *second* invocation (b: success, output "x"),
and the second `tool_end` hits the second invocation *again*, overwriting its
already-success result with output "y"; the first invocation stays running
forever.  This refutes both "the second tool_end finalizes the first" and "no
tool_end ever overwrites an invocation already marked success". -/
theorem tool_end_overwrites_success_cex :
    ((foldTurn (some (.str "conv1")) "hi" toolIds stExisting
        (interleavedToolEvents.take 3)).messages.get? 1).map (fun m =>
        (m.toolCalls.getD []).map (fun tc => (tc.name, tc.status, tc.output))) =
      some [("a", "running", none), ("b", "success", some (.str "x"))] ∧
    ((foldTurn (some (.str "conv1")) "hi" toolIds stExisting
        interleavedToolEvents).messages.get? 1).map (fun m =>
        (m.toolCalls.getD []).map (fun tc => (tc.name, tc.status, tc.output))) =
      some [("a", "running", none), ("b", "success", some (.str "y"))] :=
  ⟨rfl, rfl⟩

/-- C4 (amended): a `tool_end` frame whose payload parses to a non-null JSON
value is applied to the *last element* of the last assistant message's
`toolCalls` array regardless of that entry's status — it is set to success
with the payload's `output`/`duration`, all earlier invocations are left
untouched, and an entry already marked success is overwritten just the
same.  (The spec's "most recently added invocation *still running*" guard
does not exist in the code.) -/
theorem tool_end_targets_last_tool_call
    (turnId : Option Json) (uc fid d : String) (st : ChatState) (nci : Option Json)
    (lastMessage : Message) (j : Json) (l : List ToolCall) (tc : ToolCall)
    (hlast : st.messages.getLast? = some lastMessage)
    (hrole : lastMessage.role = "assistant")
    (hjson : jsonParse (decodeBase64UTF8 d) = some j)
    (hnn : j ≠ .null)
    (hl : l.getLast? = some tc) :
    (foldStep turnId uc fid st nci ⟨"tool_end", d⟩).1.messages =
      st.messages.map (fun m =>
        if m.id == lastMessage.id && m.toolCalls.isSome then
          { m with toolCalls := some (updateLastToolCall j (m.toolCalls.getD [])) }
        else m) ∧
    updateLastToolCall j l = l.dropLast ++ [{ tc with
      status := "success",
      output := j.getField "output",
      duration := j.getField "duration" }] := by
  constructor
  · unfold foldStep
    have hr : (lastMessage.role == "assistant") = true := by rw [hrole]; rfl
    simp only [hlast, hr, if_true, hjson]
    cases j with
    | null => exact absurd rfl hnn
    | bool b => rfl
    | num q => rfl
    | str s2 => rfl
    | arr a => rfl
    | obj o => rfl
  · unfold updateLastToolCall
    rw [hl]

/-- C4 (witness): the amended theorem applied to a state whose last assistant
message already holds `a` (running) and `b` (success, output "x"), with the
payload `{"output":"y"}`: the fold overwrites `b`. -/
def toolA : ToolCall :=
  { id := "tool-0", name := "a", args := .obj [], status := "running",
    output := none, duration := none }

def toolB : ToolCall :=
  { id := "tool-1", name := "b", args := .obj [], status := "success",
    output := some (.str "x"), duration := none }

def stTwoTools : ChatState :=
  { stExisting with messages := [userMessage "u1" "hi",
      { assistantPlaceholder "a1" with toolCalls := some [toolA, toolB] }] }

theorem tool_end_targets_last_tool_call_witness :
    (foldStep (some (.str "conv1")) "hi" (toolIds 2) stTwoTools none
        ⟨"tool_end", "eyJvdXRwdXQiOiJ5In0="⟩).1.messages =
      stTwoTools.messages.map (fun m =>
        if m.id == "a1" && m.toolCalls.isSome then
          { m with toolCalls := some (updateLastToolCall
              (.obj [("output", .str "y")]) (m.toolCalls.getD [])) }
        else m) ∧
    updateLastToolCall (.obj [("output", .str "y")]) [toolA, toolB] =
      [toolA] ++ [{ toolB with
        status := "success",
        output := (Json.obj [("output", .str "y")]).getField "output",
        duration := (Json.obj [("output", .str "y")]).getField "duration" }] :=
  tool_end_targets_last_tool_call (some (.str "conv1")) "hi" (toolIds 2)
    "eyJvdXRwdXQiOiJ5In0=" stTwoTools none
    { assistantPlaceholder "a1" with toolCalls := some [toolA, toolB] }
    (.obj [("output", .str "y")]) [toolA, toolB] toolB
    rfl rfl rfl (fun h => nomatch h) rfl

/-! ## C7 — append-only folding -/

theorem updateLastToolCall_names (j : Json) (l : List ToolCall) :
    (updateLastToolCall j l).map ToolCall.name = l.map ToolCall.name := by
  unfold updateLastToolCall
  cases h : l.getLast? with
  | none => rfl
  | some tc =>
    obtain ⟨l2, rfl⟩ := List.getLast?_eq_some_iff.mp h
    rw [List.dropLast_concat]
    simp

/-- The messages `map` of the `citation` case only appends one citation to
the last assistant message, leaving content and tool calls alone. -/
theorem citationBranch_shape (st : ChatState) (lastMessage : Message)
    (j : Json) (nci : Option Json) :
    ∃ f : Message → Message,
      (({ st with messages := st.messages.map (fun m =>
          if m.id == lastMessage.id then
            { m with citations := some ((m.citations.getD []) ++ [mkCitation j]) }
          else m) }, nci) : ChatState × Option Json).1.messages = st.messages.map f ∧
      (∀ m, ∃ t, (f m).content = m.content ++ t) ∧
      (∀ m, ∃ ns, ((f m).toolCalls.getD []).map ToolCall.name =
          (m.toolCalls.getD []).map ToolCall.name ++ ns) ∧
      (∀ m, ∃ cs, (f m).citations.getD [] = m.citations.getD [] ++ cs) ∧
      (∀ m, (f m).role = m.role ∧ (f m).id = m.id) := by
  refine ⟨_, rfl, ?_, ?_, ?_, ?_⟩
  · intro m
    by_cases h : (m.id == lastMessage.id) = true
    · exact ⟨"", by rw [if_pos h, String.append_empty]⟩
    · exact ⟨"", by rw [if_neg h, String.append_empty]⟩
  · intro m
    by_cases h : (m.id == lastMessage.id) = true
    · exact ⟨[], by rw [if_pos h, List.append_nil]⟩
    · exact ⟨[], by rw [if_neg h, List.append_nil]⟩
  · intro m
    by_cases h : (m.id == lastMessage.id) = true
    · exact ⟨[mkCitation j], by rw [if_pos h]; rfl⟩
    · exact ⟨[], by rw [if_neg h, List.append_nil]⟩
  · intro m
    by_cases h : (m.id == lastMessage.id) = true
    · exact ⟨by rw [if_pos h], by rw [if_pos h]⟩
    · exact ⟨by rw [if_neg h], by rw [if_neg h]⟩

/-- The messages `map` of the `done` case only clears the streaming flag. -/
theorem doneBranchMap_shape (st : ChatState) (lastMessage : Message) :
    ∃ f : Message → Message,
      st.messages.map (fun m =>
          if m.id == lastMessage.id then { m with isStreaming := some false }
          else m) = st.messages.map f ∧
      (∀ m, ∃ t, (f m).content = m.content ++ t) ∧
      (∀ m, ∃ ns, ((f m).toolCalls.getD []).map ToolCall.name =
          (m.toolCalls.getD []).map ToolCall.name ++ ns) ∧
      (∀ m, ∃ cs, (f m).citations.getD [] = m.citations.getD [] ++ cs) ∧
      (∀ m, (f m).role = m.role ∧ (f m).id = m.id) := by
  refine ⟨_, rfl, ?_, ?_, ?_, ?_⟩
  · intro m
    by_cases h : (m.id == lastMessage.id) = true
    · exact ⟨"", by rw [if_pos h, String.append_empty]⟩
    · exact ⟨"", by rw [if_neg h, String.append_empty]⟩
  · intro m
    by_cases h : (m.id == lastMessage.id) = true
    · exact ⟨[], by rw [if_pos h, List.append_nil]⟩
    · exact ⟨[], by rw [if_neg h, List.append_nil]⟩
  · intro m
    by_cases h : (m.id == lastMessage.id) = true
    · exact ⟨[], by rw [if_pos h, List.append_nil]⟩
    · exact ⟨[], by rw [if_neg h, List.append_nil]⟩
  · intro m
    by_cases h : (m.id == lastMessage.id) = true
    · exact ⟨by rw [if_pos h], by rw [if_pos h]⟩
    · exact ⟨by rw [if_neg h], by rw [if_neg h]⟩

/-- Shape of one fold step's effect on the transcript: either the message
list is untouched, or it is a `map` whose per-message function only appends
to content, appends tool calls (existing names preserved), and appends
citations. -/
theorem foldStep_messages_shape (turnId : Option Json) (uc fid : String)
    (st : ChatState) (nci : Option Json) (ev : SSEEvent) :
    (foldStep turnId uc fid st nci ev).1.messages = st.messages ∨
    ∃ f : Message → Message,
      (foldStep turnId uc fid st nci ev).1.messages = st.messages.map f ∧
      (∀ m, ∃ t, (f m).content = m.content ++ t) ∧
      (∀ m, ∃ ns, ((f m).toolCalls.getD []).map ToolCall.name =
          (m.toolCalls.getD []).map ToolCall.name ++ ns) ∧
      (∀ m, ∃ cs, (f m).citations.getD [] = m.citations.getD [] ++ cs) ∧
      (∀ m, (f m).role = m.role ∧ (f m).id = m.id) := by
  unfold foldStep
  cases hL : st.messages.getLast? with
  | none => exact .inl rfl
  | some lastMessage =>
    dsimp only
    by_cases hrole : (lastMessage.role == "assistant") = true
    case neg => rw [if_neg hrole]; exact .inl rfl
    rw [if_pos hrole]
    by_cases ht : (ev.type == "text") = true
    · rw [if_pos ht]
      refine .inr ⟨_, rfl, ?_, ?_, ?_, ?_⟩
      · intro m
        by_cases h : (m.id == lastMessage.id) = true
        · exact ⟨decodeBase64UTF8 ev.data, by rw [if_pos h]⟩
        · exact ⟨"", by rw [if_neg h, String.append_empty]⟩
      · intro m
        by_cases h : (m.id == lastMessage.id) = true
        · exact ⟨[], by rw [if_pos h, List.append_nil]⟩
        · exact ⟨[], by rw [if_neg h, List.append_nil]⟩
      · intro m
        by_cases h : (m.id == lastMessage.id) = true
        · exact ⟨[], by rw [if_pos h, List.append_nil]⟩
        · exact ⟨[], by rw [if_neg h, List.append_nil]⟩
      · intro m
        by_cases h : (m.id == lastMessage.id) = true
        · exact ⟨by rw [if_pos h], by rw [if_pos h]⟩
        · exact ⟨by rw [if_neg h], by rw [if_neg h]⟩
    rw [if_neg ht]
    by_cases hts : (ev.type == "tool_start") = true
    · rw [if_pos hts]
      refine .inr ⟨_, rfl, ?_, ?_, ?_, ?_⟩
      · intro m
        by_cases h : (m.id == lastMessage.id) = true
        · exact ⟨"", by rw [if_pos h, String.append_empty]⟩
        · exact ⟨"", by rw [if_neg h, String.append_empty]⟩
      · intro m
        by_cases h : (m.id == lastMessage.id) = true
        · exact ⟨[decodeBase64UTF8 ev.data], by rw [if_pos h]; simp⟩
        · exact ⟨[], by rw [if_neg h, List.append_nil]⟩
      · intro m
        by_cases h : (m.id == lastMessage.id) = true
        · exact ⟨[], by rw [if_pos h, List.append_nil]⟩
        · exact ⟨[], by rw [if_neg h, List.append_nil]⟩
      · intro m
        by_cases h : (m.id == lastMessage.id) = true
        · exact ⟨by rw [if_pos h], by rw [if_pos h]⟩
        · exact ⟨by rw [if_neg h], by rw [if_neg h]⟩
    rw [if_neg hts]
    by_cases hte : (ev.type == "tool_end") = true
    · rw [if_pos hte]
      cases hp : jsonParse (decodeBase64UTF8 ev.data) with
      | none => exact .inl rfl
      | some toolData =>
        dsimp only
        by_cases hw : (toolEndNullThrows st lastMessage toolData) = true
        · rw [if_pos hw]; exact .inl rfl
        · rw [if_neg hw]
          refine .inr ⟨_, rfl, ?_, ?_, ?_, ?_⟩
          · intro m
            by_cases h : (m.id == lastMessage.id && m.toolCalls.isSome) = true
            · exact ⟨"", by rw [if_pos h, String.append_empty]⟩
            · exact ⟨"", by rw [if_neg h, String.append_empty]⟩
          · intro m
            by_cases h : (m.id == lastMessage.id && m.toolCalls.isSome) = true
            · exact ⟨[], by
                rw [if_pos h, List.append_nil]
                simp [updateLastToolCall_names]⟩
            · exact ⟨[], by rw [if_neg h, List.append_nil]⟩
          · intro m
            by_cases h : (m.id == lastMessage.id && m.toolCalls.isSome) = true
            · exact ⟨[], by rw [if_pos h, List.append_nil]⟩
            · exact ⟨[], by rw [if_neg h, List.append_nil]⟩
          · intro m
            by_cases h : (m.id == lastMessage.id && m.toolCalls.isSome) = true
            · exact ⟨by rw [if_pos h], by rw [if_pos h]⟩
            · exact ⟨by rw [if_neg h], by rw [if_neg h]⟩
    rw [if_neg hte]
    by_cases hci : (ev.type == "citation") = true
    · rw [if_pos hci]
      cases hp : jsonParse (decodeBase64UTF8 ev.data) with
      | none => exact .inl rfl
      | some citationData =>
        dsimp only
        cases citationData
        · exact .inl rfl
        all_goals exact .inr (citationBranch_shape st lastMessage _ nci)
    rw [if_neg hci]
    by_cases hdn : (ev.type == "done") = true
    · rw [if_pos hdn]
      cases hd : doneNewConversationId turnId nci (decodeBase64UTF8 ev.data) with
      | some v => exact .inr (doneBranchMap_shape st lastMessage)
      | none => exact .inr (doneBranchMap_shape st lastMessage)
    rw [if_neg hdn]
    exact .inl rfl

theorem obs_all (st st2 : ChatState) (f : Message → Message) (i : Nat)
    (hm : st2.messages = st.messages.map f)
    (hc : ∀ m, ∃ t, (f m).content = m.content ++ t)
    (hn : ∀ m, ∃ ns, ((f m).toolCalls.getD []).map ToolCall.name =
        (m.toolCalls.getD []).map ToolCall.name ++ ns)
    (hcit : ∀ m, ∃ cs, (f m).citations.getD [] = m.citations.getD [] ++ cs) :
    st2.messages.length = st.messages.length ∧
    (∃ t, contentAt st2 i = contentAt st i ++ t) ∧
    (∃ ns, toolNamesAt st2 i = toolNamesAt st i ++ ns) ∧
    (∃ cs, citationsAt st2 i = citationsAt st i ++ cs) := by
  refine ⟨by rw [hm, List.length_map], ?_, ?_, ?_⟩
  · unfold contentAt
    rw [hm, List.get?_map]
    cases h : st.messages.get? i with
    | none => exact ⟨"", rfl⟩
    | some m =>
      obtain ⟨t, ht⟩ := hc m
      exact ⟨t, by simp [ht]⟩
  · unfold toolNamesAt
    rw [hm, List.get?_map]
    cases h : st.messages.get? i with
    | none => exact ⟨[], rfl⟩
    | some m =>
      obtain ⟨ns, hns⟩ := hn m
      exact ⟨ns, by simp [hns]⟩
  · unfold citationsAt
    rw [hm, List.get?_map]
    cases h : st.messages.get? i with
    | none => exact ⟨[], rfl⟩
    | some m =>
      obtain ⟨cs, hcs⟩ := hcit m
      exact ⟨cs, by simp [hcs]⟩

/-- C7: every single fold is append-only at every transcript position: the
message count is unchanged, the previous content is a prefix of the new
content (it is extended by some suffix, so content never shrinks), the list
of tool-call names is extended only at the end (so no invocation is removed
or replaced and the count is non-decreasing — a `tool_end` only rewrites the
status/output/duration of the last entry in place), and the citation list is
extended only at the end. -/
theorem fold_append_only (turnId : Option Json) (uc fid : String)
    (st : ChatState) (nci : Option Json) (ev : SSEEvent) (i : Nat) :
    (foldStep turnId uc fid st nci ev).1.messages.length = st.messages.length ∧
    (∃ t, contentAt (foldStep turnId uc fid st nci ev).1 i = contentAt st i ++ t) ∧
    (∃ ns, toolNamesAt (foldStep turnId uc fid st nci ev).1 i =
        toolNamesAt st i ++ ns) ∧
    (∃ cs, citationsAt (foldStep turnId uc fid st nci ev).1 i =
        citationsAt st i ++ cs) := by
  rcases foldStep_messages_shape turnId uc fid st nci ev with hid | ⟨f, hm, hc, hn, hcit, hri⟩
  · refine ⟨by rw [hid], ⟨"", ?_⟩, ⟨[], ?_⟩, ⟨[], ?_⟩⟩
    · unfold contentAt
      rw [hid, String.append_empty]
    · unfold toolNamesAt
      rw [hid, List.append_nil]
    · unfold citationsAt
      rw [hid, List.append_nil]
  · exact obs_all st _ f i hm hc hn hcit

/-! ## C6 — session learning -/

/-- Every fold step preserves the roles and ids of the transcript messages. -/
theorem foldStep_roles (turnId : Option Json) (uc fid : String)
    (st : ChatState) (nci : Option Json) (ev : SSEEvent) :
    (foldStep turnId uc fid st nci ev).1.messages.map Message.role =
      st.messages.map Message.role := by
  rcases foldStep_messages_shape turnId uc fid st nci ev with hid | ⟨f, hm, _, _, _, hri⟩
  · rw [hid]
  · rw [hm, List.map_map]
    exact List.map_eq_map_iff.mpr (fun m _ => (hri m).1)

/-- A fold step on a frame that is not a `done` frame never touches the
conversation list, the active conversation, or `newConversationId`. -/
theorem foldStep_not_done (turnId : Option Json) (uc fid : String)
    (st : ChatState) (nci : Option Json) (ev : SSEEvent)
    (hnd : (ev.type == "done") = false) :
    (foldStep turnId uc fid st nci ev).2 = nci ∧
    (foldStep turnId uc fid st nci ev).1.conversations = st.conversations ∧
    (foldStep turnId uc fid st nci ev).1.currentConversationId =
      st.currentConversationId := by
  unfold foldStep
  cases hL : st.messages.getLast? with
  | none => exact ⟨rfl, rfl, rfl⟩
  | some lastMessage =>
    dsimp only
    by_cases hrole : (lastMessage.role == "assistant") = true
    case neg => rw [if_neg hrole]; exact ⟨rfl, rfl, rfl⟩
    rw [if_pos hrole]
    by_cases ht : (ev.type == "text") = true
    · rw [if_pos ht]; exact ⟨rfl, rfl, rfl⟩
    rw [if_neg ht]
    by_cases hts : (ev.type == "tool_start") = true
    · rw [if_pos hts]; exact ⟨rfl, rfl, rfl⟩
    rw [if_neg hts]
    by_cases hte : (ev.type == "tool_end") = true
    · rw [if_pos hte]
      cases hp : jsonParse (decodeBase64UTF8 ev.data) with
      | none => exact ⟨rfl, rfl, rfl⟩
      | some toolData =>
        dsimp only
        by_cases hw : (toolEndNullThrows st lastMessage toolData) = true
        · rw [if_pos hw]; exact ⟨rfl, rfl, rfl⟩
        · rw [if_neg hw]; exact ⟨rfl, rfl, rfl⟩
    rw [if_neg hte]
    by_cases hci : (ev.type == "citation") = true
    · rw [if_pos hci]
      cases hp : jsonParse (decodeBase64UTF8 ev.data) with
      | none => exact ⟨rfl, rfl, rfl⟩
      | some citationData =>
        dsimp only
        cases citationData
        all_goals exact ⟨rfl, rfl, rfl⟩
    rw [if_neg hci]
    have hnd2 : ¬((ev.type == "done") = true) := by simp [hnd]
    rw [if_neg hnd2]
    exact ⟨rfl, rfl, rfl⟩

/-- Folding any run of non-`done` frames leaves `newConversationId`, the
conversation list, the active conversation, and the message roles unchanged. -/
theorem foldEventsAux_no_done (turnId : Option Json) (uc : String)
    (ids : Nat → String) :
    ∀ (events : List SSEEvent) (k : Nat) (st : ChatState) (nci : Option Json),
    (∀ e ∈ events, (e.type == "done") = false) →
    (foldEventsAux turnId uc ids k (st, nci) events).2 = nci ∧
    (foldEventsAux turnId uc ids k (st, nci) events).1.conversations =
      st.conversations ∧
    (foldEventsAux turnId uc ids k (st, nci) events).1.currentConversationId =
      st.currentConversationId ∧
    (foldEventsAux turnId uc ids k (st, nci) events).1.messages.map Message.role =
      st.messages.map Message.role := by
  intro events
  induction events with
  | nil => exact fun k st nci _ => ⟨rfl, rfl, rfl, rfl⟩
  | cons e rest ih =>
    intro k st nci h
    have hstep := foldStep_not_done turnId uc (ids k) st nci e
      (h e (List.mem_cons_self e rest))
    have hroles := foldStep_roles turnId uc (ids k) st nci e
    have hrest := ih (k + 1) (foldStep turnId uc (ids k) st nci e).1
      (foldStep turnId uc (ids k) st nci e).2
      (fun e2 he2 => h e2 (List.mem_cons_of_mem e he2))
    refine ⟨?_, ?_, ?_, ?_⟩
    · exact hrest.1.trans hstep.1
    · exact hrest.2.1.trans hstep.2.1
    · exact hrest.2.2.1.trans hstep.2.2
    · exact hrest.2.2.2.trans hroles

/-- With a truthy turn session id, `newConversationId` is never assigned. -/
theorem doneNewConversationId_existing (turnId : Option Json) (nci : Option Json)
    (decoded : String) (htr : jsTruthyOpt turnId = true) :
    doneNewConversationId turnId nci decoded = nci := by
  unfold doneNewConversationId
  cases hp : jsonParse decoded with
  | none => rfl
  | some j =>
    cases j with
    | null => rfl
    | bool b => rfl
    | num q => rfl
    | str s => rfl
    | arr a => rfl
    | obj fields =>
      dsimp only
      cases hf : (Json.obj fields).getField "conversation_id" with
      | none => rfl
      | some v => simp [htr]

/-- On a turn with an existing (truthy) session id, a fold step starting with
`newConversationId = null` keeps it null and never mutates the Session
Directory, whatever the frame. -/
theorem foldStep_existing (turnId : Option Json) (uc fid : String)
    (st : ChatState) (ev : SSEEvent) (htr : jsTruthyOpt turnId = true) :
    (foldStep turnId uc fid st none ev).2 = none ∧
    (foldStep turnId uc fid st none ev).1.conversations = st.conversations ∧
    (foldStep turnId uc fid st none ev).1.currentConversationId =
      st.currentConversationId := by
  by_cases hdn : (ev.type == "done") = true
  · unfold foldStep
    cases hL : st.messages.getLast? with
    | none => exact ⟨rfl, rfl, rfl⟩
    | some lastMessage =>
      dsimp only
      by_cases hrole : (lastMessage.role == "assistant") = true
      case neg => rw [if_neg hrole]; exact ⟨rfl, rfl, rfl⟩
      rw [if_pos hrole]
      by_cases ht : (ev.type == "text") = true
      · rw [if_pos ht]; exact ⟨rfl, rfl, rfl⟩
      rw [if_neg ht]
      by_cases hts : (ev.type == "tool_start") = true
      · rw [if_pos hts]; exact ⟨rfl, rfl, rfl⟩
      rw [if_neg hts]
      by_cases hte : (ev.type == "tool_end") = true
      · rw [if_pos hte]
        cases hp : jsonParse (decodeBase64UTF8 ev.data) with
        | none => exact ⟨rfl, rfl, rfl⟩
        | some toolData =>
          dsimp only
          by_cases hw : (toolEndNullThrows st lastMessage toolData) = true
          · rw [if_pos hw]; exact ⟨rfl, rfl, rfl⟩
          · rw [if_neg hw]; exact ⟨rfl, rfl, rfl⟩
      rw [if_neg hte]
      by_cases hci : (ev.type == "citation") = true
      · rw [if_pos hci]
        cases hp : jsonParse (decodeBase64UTF8 ev.data) with
        | none => exact ⟨rfl, rfl, rfl⟩
        | some citationData =>
          dsimp only
          cases citationData
          all_goals exact ⟨rfl, rfl, rfl⟩
      rw [if_neg hci]
      rw [if_pos hdn]
      rw [doneNewConversationId_existing turnId none (decodeBase64UTF8 ev.data) htr]
      exact ⟨rfl, rfl, rfl⟩
  · exact foldStep_not_done turnId uc fid st none ev (by simp at hdn; simp [hdn])

/-- Folding a whole existing-session turn never mutates the Session
Directory. -/
theorem foldEventsAux_existing (turnId : Option Json) (uc : String)
    (ids : Nat → String) (htr : jsTruthyOpt turnId = true) :
    ∀ (events : List SSEEvent) (k : Nat) (st : ChatState),
    (foldEventsAux turnId uc ids k (st, none) events).2 = none ∧
    (foldEventsAux turnId uc ids k (st, none) events).1.conversations =
      st.conversations ∧
    (foldEventsAux turnId uc ids k (st, none) events).1.currentConversationId =
      st.currentConversationId := by
  intro events
  induction events with
  | nil => exact fun k st => ⟨rfl, rfl, rfl⟩
  | cons e rest ih =>
    intro k st
    have hstep := foldStep_existing turnId uc (ids k) st e htr
    have hrest := ih (k + 1) (foldStep turnId uc (ids k) st none e).1
    -- rewrite the folded pair using the step's nci preservation
    have hpair : (foldStep turnId uc (ids k) st none e) =
        ((foldStep turnId uc (ids k) st none e).1, none) :=
      Prod.ext_iff.mpr ⟨rfl, hstep.1⟩
    refine ⟨?_, ?_, ?_⟩
    · show (foldEventsAux turnId uc ids (k + 1)
        (foldStep turnId uc (ids k) st none e) rest).2 = none
      rw [hpair]
      exact hrest.1
    · show (foldEventsAux turnId uc ids (k + 1)
        (foldStep turnId uc (ids k) st none e) rest).1.conversations =
        st.conversations
      rw [hpair]
      exact hrest.2.1.trans hstep.2.1
    · show (foldEventsAux turnId uc ids (k + 1)
        (foldStep turnId uc (ids k) st none e) rest).1.currentConversationId =
        st.currentConversationId
      rw [hpair]
      exact hrest.2.2.trans hstep.2.2

/-- On a turn with no (falsy) prior session id, a `done` payload that parses
to a value carrying a truthy `conversation_id` assigns `newConversationId`. -/
theorem doneNewConversationId_new (nci : Option Json) (decoded : String)
    (j v : Json)
    (hp : jsonParse decoded = some j)
    (hf : j.getField "conversation_id" = some v)
    (htv : jsTruthy v = true) :
    doneNewConversationId none nci decoded = some v := by
  cases j with
  | null => simp [Json.getField] at hf
  | bool b => simp [Json.getField] at hf
  | num q => simp [Json.getField] at hf
  | str s => simp [Json.getField] at hf
  | arr a => simp [Json.getField] at hf
  | obj fields =>
    unfold doneNewConversationId
    simp only [hp, hf, htv]
    rfl

/-- The effect of a `done` frame once `newConversationId` ends up assigned:
the new conversation is prepended and made active, the last assistant
message's streaming flag is cleared, and the stream ends. -/
theorem foldStep_done_new (turnId : Option Json) (uc fid d : String)
    (st : ChatState) (nci : Option Json) (lastMessage : Message) (v : Json)
    (hL : st.messages.getLast? = some lastMessage)
    (hrole : lastMessage.role = "assistant")
    (hnci : doneNewConversationId turnId nci (decodeBase64UTF8 d) = some v) :
    foldStep turnId uc fid st nci ⟨"done", d⟩ =
      ({ st with
          currentConversationId := some v,
          conversations := { id := v, title := mkTitle uc } :: st.conversations,
          messages := st.messages.map (fun m =>
            if m.id == lastMessage.id then { m with isStreaming := some false }
            else m),
          isStreaming := false,
          streamController := false }, some v) := by
  unfold foldStep
  have hr : (lastMessage.role == "assistant") = true := by rw [hrole]; rfl
  simp only [hL, hr, if_true, hnci]
  rfl

/-- Splitting a fold over an append of event lists. -/
theorem foldEventsAux_append (turnId : Option Json) (uc : String)
    (ids : Nat → String) :
    ∀ (xs ys : List SSEEvent) (k : Nat) (s : ChatState × Option Json),
    foldEventsAux turnId uc ids k s (xs ++ ys) =
      foldEventsAux turnId uc ids (k + xs.length) (foldEventsAux turnId uc ids k s xs) ys := by
  intro xs
  induction xs with
  | nil => intro ys k s; simp [foldEventsAux]
  | cons x xs ih =>
    intro ys k s
    show foldEventsAux turnId uc ids (k + 1)
        (foldStep turnId uc (ids k) s.1 s.2 x) (xs ++ ys) = _
    rw [ih ys (k + 1) (foldStep turnId uc (ids k) s.1 s.2 x)]
    have hlen : k + 1 + xs.length = k + (x :: xs).length := by
      simp [List.length_cons]; omega
    rw [hlen]
    rfl

/-- C6: session learning is exactly-once.  On a turn with no prior session
id whose stream contains exactly one `done` frame, carrying a payload with a
truthy `conversation_id`, the fold prepends exactly one new entry with that
id to the conversation list and makes it the active conversation; and on a
turn with an existing (truthy) session id, no fold of any frame sequence
ever mutates the conversation list or the active conversation. -/
theorem done_session_learning (uc : String) (ids : Nat → String) (st0 : ChatState) :
    (∀ (pre post : List SSEEvent) (d : String) (j v : Json),
      (∀ e ∈ pre, e.type ≠ "done") →
      (∀ e ∈ post, e.type ≠ "done") →
      (st0.messages.map Message.role).getLast? = some "assistant" →
      jsonParse (decodeBase64UTF8 d) = some j →
      j.getField "conversation_id" = some v →
      jsTruthy v = true →
      (foldTurn none uc ids st0 (pre ++ ⟨"done", d⟩ :: post)).conversations =
        { id := v, title := mkTitle uc } :: st0.conversations ∧
      (foldTurn none uc ids st0 (pre ++ ⟨"done", d⟩ :: post)).currentConversationId =
        some v) ∧
    (∀ (events : List SSEEvent) (turnId : Json), jsTruthy turnId = true →
      (foldTurn (some turnId) uc ids st0 events).conversations =
        st0.conversations ∧
      (foldTurn (some turnId) uc ids st0 events).currentConversationId =
        st0.currentConversationId) := by
  constructor
  · intro pre post d j v hpre hpost hrole0 hp hf htv
    have hpre2 : ∀ e ∈ pre, (e.type == "done") = false :=
      fun e he => beq_eq_false_iff_ne.mpr (hpre e he)
    have hpost2 : ∀ e ∈ post, (e.type == "done") = false :=
      fun e he => beq_eq_false_iff_ne.mpr (hpost e he)
    unfold foldTurn
    rw [foldEventsAux_append none uc ids pre (⟨"done", d⟩ :: post) 0 (st0, none)]
    obtain ⟨hA1, hA2, hA3, hA4⟩ :=
      foldEventsAux_no_done none uc ids pre 0 st0 none hpre2
    have hpair : foldEventsAux none uc ids 0 (st0, none) pre =
        ((foldEventsAux none uc ids 0 (st0, none) pre).1, none) :=
      Prod.ext_iff.mpr ⟨rfl, hA1⟩
    rw [hpair]
    have hlast : ((foldEventsAux none uc ids 0 (st0, none) pre).1.messages.getLast?).map
        Message.role = some "assistant" := by
      rw [← List.getLast?_map, hA4]
      exact hrole0
    cases hL : (foldEventsAux none uc ids 0 (st0, none) pre).1.messages.getLast? with
    | none => rw [hL] at hlast; simp at hlast
    | some lm =>
      rw [hL] at hlast
      have hlmrole : lm.role = "assistant" := by simpa using hlast
      have hstep := foldStep_done_new none uc (ids (0 + pre.length)) d
        (foldEventsAux none uc ids 0 (st0, none) pre).1 none lm v hL hlmrole
        (doneNewConversationId_new none (decodeBase64UTF8 d) j v hp hf htv)
      have hcons : foldEventsAux none uc ids (0 + pre.length)
          ((foldEventsAux none uc ids 0 (st0, none) pre).1, none)
          (⟨"done", d⟩ :: post) =
        foldEventsAux none uc ids (0 + pre.length + 1)
          (foldStep none uc (ids (0 + pre.length))
            (foldEventsAux none uc ids 0 (st0, none) pre).1 none ⟨"done", d⟩)
          post := rfl
      rw [hcons, hstep]
      obtain ⟨hB1, hB2, hB3, hB4⟩ :=
        foldEventsAux_no_done none uc ids post (0 + pre.length + 1) _ (some v) hpost2
      constructor
      · rw [hB2]
        show { id := v, title := mkTitle uc } ::
            (foldEventsAux none uc ids 0 (st0, none) pre).1.conversations =
          { id := v, title := mkTitle uc } :: st0.conversations
        rw [hA2]
      · rw [hB3]
  · intro events turnId htr
    have h := foldEventsAux_existing (some turnId) uc ids htr events 0 st0
    exact ⟨h.2.1, h.2.2⟩

/-- C6 (witness): a fresh turn with frames text "Hel", done
`{"conversation_id":"abc"}` gains exactly the one entry "abc", set active;
and the existing-session §8 scenario leaves the directory unchanged. -/
theorem done_session_learning_witness :
    ((foldTurn none "hello world" toolIds stFresh
        [⟨"text", "SGVs"⟩, ⟨"done", "eyJjb252ZXJzYXRpb25faWQiOiJhYmMifQ=="⟩]).conversations =
      { id := .str "abc", title := mkTitle "hello world" } :: stFresh.conversations ∧
     (foldTurn none "hello world" toolIds stFresh
        [⟨"text", "SGVs"⟩, ⟨"done", "eyJjb252ZXJzYXRpb25faWQiOiJhYmMifQ=="⟩]).currentConversationId =
      some (.str "abc")) ∧
    ((foldTurn (some (.str "conv1")) "hi" toolIds stExisting
        scenarioEvents).conversations = stExisting.conversations ∧
     (foldTurn (some (.str "conv1")) "hi" toolIds stExisting
        scenarioEvents).currentConversationId = stExisting.currentConversationId) := by
  constructor
  · exact (done_session_learning "hello world" toolIds stFresh).1
      [⟨"text", "SGVs"⟩] [] "eyJjb252ZXJzYXRpb25faWQiOiJhYmMifQ=="
      (.obj [("conversation_id", .str "abc")]) (.str "abc")
      (by intro e he; simp at he; subst he; decide)
      (by intro e he; simp at he)
      rfl rfl rfl rfl
  · exact (done_session_learning "hi" toolIds stExisting).2
      scenarioEvents (.str "conv1") rfl

/-- C5 (witness): the amended decode-failure theorem at the undecodable
payload `%%%` on the post-`sendMessage` state. -/
theorem decode_failure_raw_passthrough_witness :
    decodeBase64UTF8 "%%%" = "%%%" ∧
    (foldStep (some (.str "conv1")) "hi" (toolIds 0) stExisting none
        ⟨"tool_end", "%%%"⟩ = (stExisting, none) ∧
     foldStep (some (.str "conv1")) "hi" (toolIds 0) stExisting none
        ⟨"citation", "%%%"⟩ = (stExisting, none)) ∧
    (foldStep (some (.str "conv1")) "hi" (toolIds 0) stExisting none
        ⟨"text", "%%%"⟩).1.messages =
      stExisting.messages.map (fun m =>
        if m.id == (assistantPlaceholder "a1").id then
          { m with content := m.content ++ "%%%" }
        else m) := by
  have h := decode_failure_raw_passthrough "%%%" rfl
  exact ⟨h.1,
    h.2.1 (some (.str "conv1")) "hi" (toolIds 0) stExisting none rfl,
    h.2.2 (some (.str "conv1")) "hi" (toolIds 0) stExisting none
      (assistantPlaceholder "a1") rfl rfl⟩

/-! ## C8 — double emission within one chunk, and C9 — cancellation -/

/-- A foldl that only ever appends pulls the accumulator out front. -/
theorem processLines_foldl_acc (lines : List (List Char)) :
    ∀ (ls : List (List Char)) (acc : List SSEEvent),
    ls.foldl (fun acc line => acc ++ lineContrib lines line) acc =
      acc ++ ls.foldl (fun acc line => acc ++ lineContrib lines line) [] := by
  intro ls
  induction ls with
  | nil => intro acc; simp
  | cons x xs ih =>
    intro acc
    show List.foldl _ (acc ++ lineContrib lines x) xs = _
    rw [ih (acc ++ lineContrib lines x)]
    conv_rhs => rw [List.foldl_cons, ih ([] ++ lineContrib lines x)]
    simp [List.append_assoc]

/-- `indexOf` at a first occurrence: the element's position. -/
theorem indexOf_first_occurrence (l1 : List Char) :
    ∀ (pre : List (List Char)), l1 ∉ pre →
    ∀ (rest : List (List Char)), (pre ++ l1 :: rest).indexOf l1 = pre.length := by
  intro pre
  induction pre with
  | nil =>
    intro _ rest
    simp [List.indexOf, List.findIdx_cons]
  | cons p ps ih =>
    intro h rest
    have hp : (p == l1) = false :=
      beq_eq_false_iff_ne.mpr (fun he => h (by rw [← he]; exact List.mem_cons_self p ps))
    have h2 : l1 ∉ ps := fun hx => h (List.mem_cons_of_mem p hx)
    show (p :: (ps ++ l1 :: rest)).indexOf l1 = ps.length + 1
    have := ih h2 rest
    simp only [List.indexOf, List.findIdx_cons, hp] at this ⊢
    rw [this]
    rfl

/-- The lookahead of an `event:` line standing at the first occurrence of
its text: the line that follows it. -/
theorem get?_after_first (pre : List (List Char)) (l1 l2 : List Char)
    (post : List (List Char)) (hnm : l1 ∉ pre) :
    (pre ++ l1 :: l2 :: post).get? ((pre ++ l1 :: l2 :: post).indexOf l1 + 1) =
      some l2 := by
  rw [indexOf_first_occurrence l1 pre hnm (l2 :: post),
    List.get?_append_right (by omega)]
  simp

/-- Contribution of an `event:` line at the first occurrence of its text,
followed by a `data:` line: one frame with the declared type and that data
line's payload. -/
theorem lineContrib_event (pre post : List (List Char)) (l1 l2 : List Char)
    (h1 : "event:".data.isPrefixOf l1 = true)
    (hnm : l1 ∉ pre)
    (h3 : "data:".data.isPrefixOf l2 = true) :
    lineContrib (pre ++ l1 :: l2 :: post) l1 =
      [⟨String.mk (jsTrim (l1.drop 6)), String.mk (jsTrim (l2.drop 5))⟩] := by
  unfold lineContrib
  rw [if_pos h1, get?_after_first pre l1 l2 post hnm]
  dsimp only
  rw [if_pos h3]

/-- Contribution of a `data:` line that is not an `event:` line: one `text`
frame with its own payload. -/
theorem lineContrib_data (lines : List (List Char)) (l2 : List Char)
    (h2 : "event:".data.isPrefixOf l2 = false)
    (h3 : "data:".data.isPrefixOf l2 = true) :
    lineContrib lines l2 = [⟨"text", String.mk (jsTrim (l2.drop 5))⟩] := by
  unfold lineContrib
  rw [if_neg (by simp [h2]), if_pos h3]

/-- C8 (counterexample): the claim fails when the chunk repeats an `event:`
line's text.  For the chunk `event: a\ndata: x\nevent: a\ndata: y\n` the loop
emits `(a,x), (text,x), (a,x), (text,y)`: the second wire frame's typed
emission carries the *first* frame's payload (the `lines.indexOf(line)`
lookahead finds the first occurrence), so the frame `(a,y)` — the declared
type with that frame's own payload — is never emitted at all. -/
theorem repeated_event_line_cex :
    processChunk [] "event: a\ndata: x\nevent: a\ndata: y\n".data =
      ([], [⟨"a", "x"⟩, ⟨"text", "x"⟩, ⟨"a", "x"⟩, ⟨"text", "y"⟩]) ∧
    (⟨"a", "y"⟩ : SSEEvent) ∉
      (processChunk [] "event: a\ndata: x\nevent: a\ndata: y\n".data).2 :=
  ⟨rfl, by decide⟩

/-- C8 (amended): for every buffer and chunk whose complete lines contain an
`event: <type>` line immediately followed by its `data:` line, where the
`event:` line stands at the *first* occurrence of its text among those lines
(without that proviso the `lines.indexOf(line)` lookahead substitutes the
first occurrence's data line, see the counterexample), the decode loop
invokes `onMessage` twice in a row for that single wire frame: once with the
declared event type and once with type "text", both carrying the same
payload — so the payload of such a typed frame is additionally folded as
text into the Message content. -/
theorem event_data_pair_double_emit (buffer chunk : List Char)
    (pre post : List (List Char)) (l1 l2 : List Char)
    (hsplit : (splitLines (buffer ++ chunk)).dropLast = pre ++ l1 :: l2 :: post)
    (h1 : "event:".data.isPrefixOf l1 = true)
    (hfirst : l1 ∉ pre)
    (h2 : "event:".data.isPrefixOf l2 = false)
    (h3 : "data:".data.isPrefixOf l2 = true) :
    ∃ before after : List SSEEvent,
      (processChunk buffer chunk).2 =
        before ++ ⟨String.mk (jsTrim (l1.drop 6)), String.mk (jsTrim (l2.drop 5))⟩ ::
          ⟨"text", String.mk (jsTrim (l2.drop 5))⟩ :: after := by
  have hc : (processChunk buffer chunk).2 =
      processLines ((splitLines (buffer ++ chunk)).dropLast) := rfl
  rw [hc, hsplit]
  refine ⟨pre.foldl
      (fun acc line => acc ++ lineContrib (pre ++ l1 :: l2 :: post) line) [],
    post.foldl
      (fun acc line => acc ++ lineContrib (pre ++ l1 :: l2 :: post) line) [], ?_⟩
  unfold processLines
  rw [List.foldl_append, List.foldl_cons, List.foldl_cons]
  rw [processLines_foldl_acc, lineContrib_event pre post l1 l2 h1 hfirst h3,
    lineContrib_data (pre ++ l1 :: l2 :: post) l2 h2 h3]
  simp [List.append_assoc]

/-- C8 (witness): the amended theorem at the one-frame chunk
`event: done\ndata: e30=\n` with an empty buffer. -/
theorem event_data_pair_double_emit_witness :
    ∃ before after : List SSEEvent,
      (processChunk [] "event: done\ndata: e30=\n".data).2 =
        before ++ (⟨"done", "e30="⟩ : SSEEvent) ::
          (⟨"text", "e30="⟩ : SSEEvent) :: after :=
  event_data_pair_double_emit [] "event: done\ndata: e30=\n".data [] []
    "event: done".data "data: e30=".data rfl (by decide) (by decide)
    (by decide) (by decide)

/-- The per-message flag clearing of `stopStreaming` never leaves a message
marked streaming and changes nothing else about the message. -/
theorem stopFlag_clears (m : Message) :
    ((if m.isStreaming.getD false then { m with isStreaming := some false }
      else m) : Message).isStreaming ≠ some true ∧
    ((if m.isStreaming.getD false then { m with isStreaming := some false }
      else m) : Message).content = m.content ∧
    ((if m.isStreaming.getD false then { m with isStreaming := some false }
      else m) : Message).toolCalls = m.toolCalls ∧
    ((if m.isStreaming.getD false then { m with isStreaming := some false }
      else m) : Message).citations = m.citations := by
  by_cases hm : (m.isStreaming.getD false) = true
  · rw [if_pos hm]
    exact ⟨by simp, rfl, rfl, rfl⟩
  · rw [if_neg hm]
    refine ⟨?_, rfl, rfl, rfl⟩
    cases hms : m.isStreaming with
    | none => simp
    | some b =>
      rw [hms] at hm
      have hb : b = false := by simpa using hm
      rw [hb]
      simp

/-- C9: cancelling twice produces one cancelled outcome and no error.  With
a stream controller held, `stopStreaming` drops the controller and clears
the streaming flags; a second call finds no controller and is a no-op; the
abort surfaces in `streamChat`'s catch as an `AbortError`, which is filtered
so `onError` is never invoked (the store's error field is untouched); and
the in-flight message keeps all folded content, tool invocations and
citations, with no message left marked streaming. -/
theorem stopStreaming_idempotent_cancel (st : ChatState)
    (h : st.streamController = true) :
    stopStreamingStep (stopStreamingStep st) = stopStreamingStep st ∧
    (stopStreamingStep st).streamController = false ∧
    (stopStreamingStep st).isStreaming = false ∧
    (stopStreamingStep st).error = st.error ∧
    (stopStreamingStep st).conversations = st.conversations ∧
    (stopStreamingStep st).messages.map Message.content =
      st.messages.map Message.content ∧
    (stopStreamingStep st).messages.map Message.toolCalls =
      st.messages.map Message.toolCalls ∧
    (stopStreamingStep st).messages.map Message.citations =
      st.messages.map Message.citations ∧
    (∀ m ∈ (stopStreamingStep st).messages, m.isStreaming ≠ some true) ∧
    streamChatReportsError "AbortError" = false := by
  have hone : stopStreamingStep st =
      { st with
          isStreaming := false,
          streamController := false,
          messages := st.messages.map (fun m =>
            if m.isStreaming.getD false then { m with isStreaming := some false }
            else m) } := by
    unfold stopStreamingStep
    rw [if_pos h]
  rw [hone]
  refine ⟨rfl, rfl, rfl, rfl, rfl, ?_, ?_, ?_, ?_, rfl⟩
  · rw [List.map_map]
    exact List.map_eq_map_iff.mpr (fun m _ => (stopFlag_clears m).2.1)
  · rw [List.map_map]
    exact List.map_eq_map_iff.mpr (fun m _ => (stopFlag_clears m).2.2.1)
  · rw [List.map_map]
    exact List.map_eq_map_iff.mpr (fun m _ => (stopFlag_clears m).2.2.2)
  · intro m hm
    obtain ⟨a, _, rfl⟩ := List.mem_map.mp hm
    exact (stopFlag_clears a).1

/-- C9 (witness): the cancellation theorem at the in-flight post-
`sendMessage` state. -/
theorem stopStreaming_idempotent_cancel_witness :
    stopStreamingStep (stopStreamingStep stExisting) = stopStreamingStep stExisting ∧
    (stopStreamingStep stExisting).streamController = false ∧
    (stopStreamingStep stExisting).isStreaming = false ∧
    (stopStreamingStep stExisting).error = stExisting.error ∧
    (stopStreamingStep stExisting).conversations = stExisting.conversations ∧
    (stopStreamingStep stExisting).messages.map Message.content =
      stExisting.messages.map Message.content ∧
    (stopStreamingStep stExisting).messages.map Message.toolCalls =
      stExisting.messages.map Message.toolCalls ∧
    (stopStreamingStep stExisting).messages.map Message.citations =
      stExisting.messages.map Message.citations ∧
    (∀ m ∈ (stopStreamingStep stExisting).messages, m.isStreaming ≠ some true) ∧
    streamChatReportsError "AbortError" = false :=
  stopStreaming_idempotent_cancel stExisting rfl
